import Mathlib

/-!
Verification of the WebBoard task-calendar pipeline.

Shallow embedding of the repository's two source files:
  * `DataAccess.gs` (version 2.0): `valuesToObjects`, `arrayToMap`,
    `getAllDataWithCache` with the single-entry dataset cache;
  * `Code.gs` / `DataTransformation.gs`: `validateEvent`,
    `mapColorNameToHex`, `enrichEventsWithSupportingData`,
    `buildEventTitle`, `transformEventsForCalendar`,
    `formatDateTimeForCalendar`.

Modelling conventions, stated once:
  * Spreadsheet cell values and JavaScript values are modelled by `JSVal`
    (strings, numbers, booleans, `undefined`, arrays, objects).  Property
    access on a missing key yields `undef`, as in JavaScript.
  * JavaScript objects are modelled as association lists with first-match
    lookup; property assignment replaces the first matching key in place
    (JavaScript objects hold at most one property per key, so this is
    observationally the JS update).
  * `new Date(v)` is modelled for ISO-8601 strings
    (`YYYY-MM-DD` with an optional `THH:MM[:SS[.mmm]][Z]` part), the format
    the sheet values and their JSON serializations use, under a UTC script
    timezone.  Non-ISO fallback parsing and numeric-timestamp dates are
    outside the modelled cell domain and yield an invalid date.
  * `JSON.stringify`/`JSON.parse` of a cached bundle is modelled as the
    identity: on the modelled cell domain (strings, numbers, booleans)
    the JSON round trip preserves every observable of the bundle.
-/

namespace WebBoard

/-- JavaScript runtime values as they occur in this program. -/
inductive JSVal where
  | vStr (s : String)
  | vNum (n : Int)
  | vBool (b : Bool)
  | undef
  | vArr (elems : List JSVal)
  | vObj (fields : List (String × JSVal))

open JSVal

/-- JavaScript truthiness of a value (`if (v)`). -/
def truthy : JSVal → Bool
  | vStr s => s ≠ ""
  | vNum n => n ≠ 0
  | vBool b => b
  | undef => false
  | vArr _ => true
  | vObj _ => true

/-- JavaScript string conversion (`String(v)`, `${v}`, `.toString()`),
on the flat values this program stringifies.  Arrays and objects are
never stringified by the modelled code paths. -/
def toStr : JSVal → String
  | vStr s => s
  | vNum n => toString n
  | vBool b => if b then "true" else "false"
  | undef => "undefined"
  | vArr _ => ""
  | vObj _ => "[object Object]"

/-- JavaScript `a || b`: `b` when `a` is falsy, else `a`. -/
def jsOr (a b : JSVal) : JSVal := if truthy a then a else b

/-! String primitives, re-implemented over the character list so that
they compute by kernel reduction (`String.trim` and friends recurse on
byte positions and do not).  `Char.isWhitespace` covers exactly the
whitespace occurring in the modelled sheet data. -/

/-- Strip leading and trailing whitespace (`String.prototype.trim`). -/
def trimChars (l : List Char) : List Char :=
  ((l.dropWhile Char.isWhitespace).reverse.dropWhile Char.isWhitespace).reverse

/-- JavaScript `s.trim()`. -/
def jsTrim (s : String) : String := ⟨trimChars s.data⟩

/-- JavaScript `s.toLowerCase()` on the modelled data: ASCII letters are
lowered, Hebrew (caseless) and digits are fixed. -/
def jsToLower (s : String) : String := ⟨s.data.map Char.toLower⟩

/-- Split on a one-character separator (`String.prototype.split`). -/
def splitOnCharAux (sep : Char) : List Char → List Char → List (List Char)
  | [], acc => [acc.reverse]
  | c :: rest, acc =>
    if c = sep then acc.reverse :: splitOnCharAux sep rest []
    else splitOnCharAux sep rest (c :: acc)

/-- JavaScript-style split of a string on a one-character separator. -/
def strSplitOn (s : String) (sep : Char) : List String :=
  (splitOnCharAux sep s.data []).map (fun l => ⟨l⟩)

/-- An association list used to model both JavaScript objects and the
lookup maps (`{}`-as-dictionary) of the program. -/
abbrev StrMap (α : Type) := List (String × α)

/-- A sheet row / JavaScript object: named fields with `JSVal` values. -/
abbrev Record := StrMap JSVal

/-- First-match lookup (JavaScript property read, as `Option`). -/
def mapGet {α : Type} : StrMap α → String → Option α
  | [], _ => none
  | p :: rest, k => if p.1 = k then some p.2 else mapGet rest k

/-- JavaScript property assignment `m[k] = v`: replace the first matching
key in place, or append the new property. -/
def mapSet {α : Type} : StrMap α → String → α → StrMap α
  | [], k, v => [(k, v)]
  | p :: rest, k, v => if p.1 = k then (k, v) :: rest else p :: mapSet rest k v

/-- JavaScript property read on a record: `undefined` when missing. -/
def getF (r : Record) (k : String) : JSVal := (mapGet r k).getD undef

/-- JavaScript property write on a record. -/
def setF (r : Record) (k : String) (v : JSVal) : Record := mapSet r k v

/-! Date model: `new Date(...)` for the ISO-8601 strings the sheet data
and its JSON serialization use, under a UTC script timezone. -/

/-- A valid JavaScript `Date`, broken into calendar components
(UTC script timezone, so local and UTC components coincide). -/
structure JSDate where
  y : Nat
  mo : Nat
  d : Nat
  hh : Nat
  mi : Nat
  ss : Nat
  ms : Nat
deriving DecidableEq

/-- Millisecond-resolution ordering key for valid in-range dates;
lexicographic on the components, as `Date` timestamp order is. -/
def JSDate.key (dt : JSDate) : Nat :=
  (((((dt.y * 13 + dt.mo) * 32 + dt.d) * 24 + dt.hh) * 60 + dt.mi) * 60 + dt.ss) * 1000 + dt.ms

/-- JavaScript `a < b` on two valid dates (timestamp comparison). -/
def dateLt (a b : JSDate) : Bool := a.key < b.key

def isLeapYear (y : Nat) : Bool :=
  (y % 4 == 0 && y % 100 != 0) || y % 400 == 0

def daysInMonth (y mo : Nat) : Nat :=
  if mo = 2 then (if isLeapYear y then 29 else 28)
  else if mo = 4 ∨ mo = 6 ∨ mo = 9 ∨ mo = 11 then 30
  else 31

/-- Parse a fixed-width run of ASCII digits. -/
def parseFixedNat (s : String) (len : Nat) : Option Nat :=
  if s.data.length = len ∧ s.data.all (fun c => c.isDigit) then
    some (s.data.foldl (fun n c => n * 10 + (c.toNat - '0'.toNat)) 0)
  else none

/-- Parse the `YYYY-MM-DD` part; the `Date` constructor rejects
out-of-range months and days in ISO strings. -/
def parseDatePart (ds : String) : Option (Nat × Nat × Nat) :=
  match strSplitOn ds '-' with
  | [ys, mos, dys] =>
    match parseFixedNat ys 4, parseFixedNat mos 2, parseFixedNat dys 2 with
    | some y, some mo, some dy =>
      if 1 ≤ mo ∧ mo ≤ 12 ∧ 1 ≤ dy ∧ dy ≤ daysInMonth y mo then some (y, mo, dy) else none
    | _, _, _ => none
  | _ => none

/-- Parse the `HH:MM[:SS[.mmm]]` part, with an optional `Z` suffix. -/
def parseTimePart (ts : String) : Option (Nat × Nat × Nat × Nat) :=
  let ts : String := if ts.data.getLast? = some 'Z' then ⟨ts.data.dropLast⟩ else ts
  match strSplitOn ts ':' with
  | [hs, mis] =>
    match parseFixedNat hs 2, parseFixedNat mis 2 with
    | some hv, some miv =>
      if hv < 24 ∧ miv < 60 then some (hv, miv, 0, 0) else none
    | _, _ => none
  | [hs, mis, sf] =>
    let (secs, mss) := match strSplitOn sf '.' with
      | [a] => (a, "000")
      | [a, b] => (a, b)
      | _ => ("", "")
    match parseFixedNat hs 2, parseFixedNat mis 2, parseFixedNat secs 2, parseFixedNat mss 3 with
    | some hv, some miv, some sv, some msv =>
      if hv < 24 ∧ miv < 60 ∧ sv < 60 then some (hv, miv, sv, msv) else none
    | _, _, _, _ => none
  | _ => none

/-- Parse an ISO-8601 date or date-time string as `new Date(s)` does. -/
def parseIsoDate (s : String) : Option JSDate :=
  match strSplitOn s 'T' with
  | [dPart] =>
    match parseDatePart dPart with
    | some (y, mo, dy) => some ⟨y, mo, dy, 0, 0, 0, 0⟩
    | none => none
  | [dPart, tPart] =>
    match parseDatePart dPart, parseTimePart tPart with
    | some (y, mo, dy), some (hv, miv, sv, msv) => some ⟨y, mo, dy, hv, miv, sv, msv⟩
    | _, _ => none
  | _ => none

/-- Model of `new Date(v)`: `none` is an Invalid Date
(`isNaN(d.getTime())`).  Only the ISO string forms occurring in the
modelled cell domain produce a valid date. -/
def jsNewDate : JSVal → Option JSDate
  | vStr s => parseIsoDate s
  | _ => none

/-- JavaScript `a < b` where either date may be invalid: any comparison
against an Invalid Date (`NaN` timestamp) is `false`. -/
def dateLtOpt (a b : Option JSDate) : Bool :=
  match a, b with
  | some a, some b => dateLt a b
  | _, _ => false

/-- Left-pad a numeral to two digits. -/
def fmt2 (n : Nat) : String := if n < 10 then "0" ++ toString n else toString n

/-- Left-pad a numeral to four digits (years parsed here are ≤ 9999). -/
def fmt4 (n : Nat) : String :=
  if n < 10 then "000" ++ toString n
  else if n < 100 then "00" ++ toString n
  else if n < 1000 then "0" ++ toString n
  else toString n

/-! Embedding of `DataTransformation.gs`. -/

/-- `validateEvent(task)` from `DataTransformation.gs`: collects the
validation error messages for one raw task row. -/
def validateEvent (task : Record) : List String :=
  let tid := toStr (jsOr (getF task "ID") (vStr "לא ידוע"))
  let e1 : List String :=
    if ¬ truthy (getF task "dateIn") ∨ jsNewDate (getF task "dateIn") = none then
      ["משימה " ++ tid ++ ": תאריך התחלה (dateIn) חסר או לא תקין."]
    else []
  let e2 : List String :=
    if e1 = [] ∧ truthy (getF task "dateOut") then
      match jsNewDate (getF task "dateOut") with
      | none => ["משימה " ++ tid ++ ": תאריך סיום (dateOut) אינו תקין."]
      | some ed =>
        if dateLtOpt (some ed) (jsNewDate (getF task "dateIn")) then
          ["משימה " ++ tid ++ ": תאריך סיום מוקדם מתאריך ההתחלה."]
        else []
    else []
  let e3 : List String :=
    if ¬ truthy (getF task "Project") then
      ["משימה " ++ tid ++ ": לא שויכה לפרויקט (Project)."]
    else []
  e1 ++ e2 ++ e3

/-- `mapColorNameToHex(colorName, defaultHex)`: non-strings and the empty
string fall back to the default, otherwise the fixed name-to-hex table
applies after trim and lower-casing. -/
def mapColorNameToHex (colorName : JSVal) (defaultHex : String) : String :=
  match colorName with
  | vStr s =>
    if s = "" then defaultHex
    else
      match jsToLower (jsTrim s) with
      | "red" => "#FF0000"
      | "blue" => "#0000FF"
      | "green" => "#008000"
      | "black" => "#000000"
      | "white" => "#FFFFFF"
      | "orange" => "#FFA500"
      | "purple" => "#800080"
      | "yellow" => "#FFFF00"
      | "grey" => "#808080"
      | "gray" => "#808080"
      | _ => defaultHex
  | _ => defaultHex

/-- The six supporting lookup maps, keyed by sheet `ID`. -/
structure SupportingData where
  projects : StrMap Record
  employees : StrMap Record
  taskStatuses : StrMap Record
  taskTypes : StrMap Record
  locations : StrMap Record
  projectStatuses : StrMap Record

/-- One foreign-key resolution of the join logic:
`(key && map[key.toString().trim()]) ? map[key.toString().trim()] : {}`. -/
def lookupJoin (keyVal : JSVal) (m : StrMap Record) : Record :=
  if truthy keyVal then
    match mapGet m (jsTrim (toStr keyVal)) with
    | some r => r
    | none => []
  else []

/-- JavaScript `` `${a || ''} ${b || ''}`.trim() `` for the person-name fields. -/
def personName (a b : JSVal) : String :=
  jsTrim (toStr (jsOr a (vStr "")) ++ " " ++ toStr (jsOr b (vStr "")))

/-- The enrichment map body of `enrichEventsWithSupportingData`: copies
the task and adds the ten resolved properties, in source order. -/
def enrichOne (task : Record) (sd : SupportingData) : Record :=
  let projectData := lookupJoin (getF task "Project") sd.projects
  let projectStatusData := lookupJoin (getF projectData "ProjectStatus") sd.projectStatuses
  let taskTypeData := lookupJoin (getF task "TaskType") sd.taskTypes
  let taskStatusData := lookupJoin (getF task "TaskStatus") sd.taskStatuses
  let locationData := lookupJoin (getF projectData "Location") sd.locations
  let taskManagerData := lookupJoin (getF task "TaskManager") sd.employees
  let projectManagerData := lookupJoin (getF projectData "ProjectManager") sd.employees
  ((((((((((setF task "projectName" (jsOr (getF projectData "name") (vStr ""))
    |> (setF · "projectFolder" (jsOr (getF projectData "folder") (vStr ""))))
    |> (setF · "locationName" (jsOr (getF locationData "name") (vStr ""))))
    |> (setF · "taskManagerName" (vStr (personName (getF taskManagerData "fName") (getF taskManagerData "sName")))))
    |> (setF · "projectManagerName" (vStr (personName (getF projectManagerData "fName") (getF projectManagerData "sName")))))
    |> (setF · "projectStatus" (vStr (jsToLower (jsTrim (toStr (jsOr (getF projectStatusData "Status") (vStr ""))))))))
    |> (setF · "taskTypeName" (vStr (jsToLower (jsTrim (toStr (jsOr (getF taskTypeData "hebrew") (jsOr (getF task "Task") (vStr "")))))))))
    |> (setF · "taskStatusHebrew" (vStr (jsToLower (jsTrim (toStr (jsOr (getF taskStatusData "hebrew") (jsOr (getF taskStatusData "TaskStatus") (vStr "")))))))))
    |> (setF · "backgroundColor" (vStr "#f0f2f5")))
    |> (setF · "textColor" (vStr (mapColorNameToHex (getF taskTypeData "color") "#000000")))))

/-- The fixed inactive project-status constants of the status filter. -/
def inactiveProjectStatuses : List String :=
  ["מבוטל", "אופציונלי", "טנטטיבי", "נדחה", "canceled", "cancelled", "tentative"]

/-- The fixed inactive task-status constants of the status filter. -/
def inactiveTaskStatuses : List String :=
  ["מבוטל", "נדחה", "canceled", "cancelled"]

/-- JavaScript `Array.prototype.includes` of a fixed string list applied
to a runtime value: strict equality, so only a string can match. -/
def jsIncludes (l : List String) (v : JSVal) : Bool :=
  match v with
  | vStr s => l.contains s
  | _ => false

/-- The status-filter predicate of `enrichEventsWithSupportingData`:
`true` when the enriched event survives. -/
def statusKeep (event : Record) : Bool :=
  if jsIncludes inactiveProjectStatuses (getF event "projectStatus") then false
  else if jsIncludes inactiveTaskStatuses (getF event "taskStatusHebrew") then false
  else true

/-- `enrichEventsWithSupportingData(tasks, supportingData)`: validation
filter, enrichment map, status filter, in source order.  (The guard for
`null` arguments has no counterpart: lists and structures are total
here.) -/
def enrichEventsWithSupportingData (tasks : List Record) (sd : SupportingData) : List Record :=
  (((tasks.filter (fun task => validateEvent task = [])).map (enrichOne · sd)).filter statusKeep)

/-- The header line logged for one rejected task:
`` `בעיות ולידציה עבור משימה ID ${task.ID || 'לא ידוע'}. המשימה לא תוצג:` ``. -/
def validationLogHeader (task : Record) : String :=
  "בעיות ולידציה עבור משימה ID " ++ toStr (jsOr (getF task "ID") (vStr "לא ידוע")) ++ ". המשימה לא תוצג:"

/-- The `console.error` lines the validation filter emits, in order: for
each task with errors, the header line followed by one `- `-prefixed
line per error. -/
def validationLogs (tasks : List Record) : List String :=
  tasks.flatMap (fun task =>
    let errs := validateEvent task
    if errs = [] then []
    else validationLogHeader task :: errs.map (fun e => "- " ++ e))

/-- JavaScript strict equality `v === s` against a string literal. -/
def jsEqStr (v : JSVal) (s : String) : Bool :=
  match v with
  | vStr s' => s' = s
  | _ => false

/-- `buildEventTitle(event)`: the special calendar-event category takes
the bare project name; otherwise the truthy parts among task type,
project, location and task manager are joined with `" - "`
(`Array.prototype.join` stringifies the parts). -/
def buildEventTitle (event : Record) : JSVal :=
  if jsEqStr (getF event "taskTypeName") "ארוע לוח שנה" then
    jsOr (getF event "projectName") (vStr "")
  else
    vStr (String.intercalate " - "
      (([getF event "taskTypeName", getF event "projectName",
         getF event "locationName", getF event "taskManagerName"].filter truthy).map toStr))

/-- `formatDateTimeForCalendar(datePart, timePart)`: `null` for a falsy
or unparseable date; otherwise a date-time ISO string when a parseable
time part is supplied, else the date-only ISO string.  Under the UTC
script timezone, `getFullYear`/`getMonth`/`getDate` return the parsed
components and `new Date(y, m, d, ...).toISOString()` re-renders them
(the 0-based month of `getMonth` feeds the 0-based constructor slot, so
1-based components pass through unchanged). -/
def formatDateTimeForCalendar (datePart timePart : JSVal) : Option String :=
  if ¬ truthy datePart then none
  else
    match jsNewDate datePart with
    | none => none
    | some dt =>
      let dateOnly := fmt4 dt.y ++ "-" ++ fmt2 dt.mo ++ "-" ++ fmt2 dt.d
      if truthy timePart then
        match jsNewDate timePart with
        | some tm =>
          some (dateOnly ++ "T" ++ fmt2 tm.hh ++ ":" ++ fmt2 tm.mi ++ ":00.000Z")
        | none => some dateOnly
      else some dateOnly

/-- The map body of `transformEventsForCalendar`: builds the FullCalendar
object, or `null` (`none`) when the start fails to format.  The `end`
property is assigned the constant `undefined`. -/
def transformOne (event : Record) : Option Record :=
  match formatDateTimeForCalendar (getF event "dateIn") (getF event "timeIn") with
  | none => none
  | some start =>
    let isCalendarEvent := jsEqStr (getF event "taskTypeName") "ארוע לוח שנה"
    some
      [("id", getF event "ID"),
       ("title", buildEventTitle event),
       ("start", vStr start),
       ("end", undef),
       ("allDay", vBool (isCalendarEvent || ¬ truthy (getF event "timeIn"))),
       ("backgroundColor", getF event "backgroundColor"),
       ("textColor", getF event "textColor"),
       ("borderColor", getF event "backgroundColor"),
       ("classNames", vArr (if isCalendarEvent then [vStr "calendar-event"] else [])),
       ("extendedProps", vObj
         [("description", jsOr (getF event "TaskNotes") (vStr "")),
          ("status", jsOr (getF event "taskStatusHebrew") (vStr "לא הוגדר")),
          ("project", jsOr (getF event "projectName") (vStr "ללא פרויקט")),
          ("user", jsOr (getF event "projectManagerName") (vStr "לא שויך")),
          ("folderLink", jsOr (getF event "projectFolder") (vStr "")),
          ("taskTypeName", jsOr (getF event "taskTypeName") (vStr ""))])]

/-- `transformEventsForCalendar(enrichedEvents)`: map then drop the
`null` entries (`filterMap`). -/
def transformEventsForCalendar (enrichedEvents : List Record) : List Record :=
  enrichedEvents.filterMap transformOne

/-- `isUndef v` holds exactly for `undefined`. -/
def isUndef : JSVal → Bool
  | undef => true
  | _ => false

/-- The property names `JSON.stringify` serializes for an object:
properties whose value is `undefined` are omitted from the JSON text. -/
def jsonKeys (r : Record) : List String :=
  (r.filter (fun p => ¬ isUndef p.2)).map Prod.fst

/-! Embedding of `DataAccess.gs` (version 2.0, the single-entry dataset
cache used by the bundle loader). -/

/-- `valuesToObjects(values)`: header row to trimmed keys, remaining
rows to objects; fewer than two rows yields no records.  Empty header
cells contribute no property; a row shorter than the header reads
`undefined` past its end. -/
def valuesToObjects (values : List (List JSVal)) : List Record :=
  match values with
  | [] => []
  | [_] => []
  | headers :: rows =>
    let hs := headers.map (fun h => jsTrim (toStr h))
    rows.map (fun row =>
      hs.enum.foldl (fun obj p =>
        if p.2 = "" then obj else setF obj p.2 (row.getD p.1 undef)) [])

/-- `arrayToMap(array, keyField)`: index records by the stringified key
field, skipping records with a falsy key; a later record overwrites an
earlier one with the same key. -/
def arrayToMap (array : List Record) (keyField : String) : StrMap Record :=
  array.foldl (fun m item =>
    if truthy (getF item keyField) then mapSet m (toStr (getF item keyField)) item else m) []

/-- The `{taskData, supportingData}` bundle `getAllDataWithCache`
returns and caches. -/
structure Bundle where
  taskData : List Record
  supportingData : SupportingData

/-- The script cache: entries `(key, value, expiresAt)`.  The stored
value is kept in deserialized form; the JSON round trip is the identity
on the modelled cell domain (file header). -/
abbrev Cache := List (String × Bundle × Nat)

/-- `CacheService.get`: the stored value while unexpired, else absent. -/
def cacheGet (c : Cache) (now : Nat) (k : String) : Option Bundle :=
  match mapGet c k with
  | some (b, exp) => if now < exp then some b else none
  | none => none

/-- `CacheService.put` with an expiry timestamp. -/
def cachePut (c : Cache) (k : String) (b : Bundle) (exp : Nat) : Cache :=
  mapSet c k (b, exp)

def ALL_DATA_CACHE_KEY : String := "ALL_SHEETS_DATA_V2"

def CACHE_EXPIRATION_SECONDS : Nat := 3600

def sheetNamesList : List String :=
  ["Task", "Project", "Employee", "TaskStatus", "TaskType", "Location", "ProjectStatus"]

/-- The external world one `getAllDataWithCache` call sees: the
spreadsheet's sheets (name and 2D values, in `getSheets()` order), the
cache contents, the current time in seconds, and whether the two
fallible external calls (`CACHE_SERVICE.put`, `SpreadsheetApp.openById`
with its reads) succeed. -/
structure World where
  sheets : List (String × List (List JSVal))
  cache : Cache
  now : Nat
  cachePutOk : Bool
  storeOk : Bool

/-- The `ss.getSheets().forEach` loop: keep the sheets whose name is in
`sheetNames`. -/
def selectSheets (sheets : List (String × List (List JSVal))) : StrMap (List (List JSVal)) :=
  sheets.foldl (fun m p =>
    if sheetNamesList.contains p.1 then mapSet m p.1 p.2 else m) []

/-- The empty-bundle fallback of the `catch` branch. -/
def emptyBundle : Bundle :=
  ⟨[], ⟨[], [], [], [], [], []⟩⟩

/-- Steps 2–3 of `getAllDataWithCache`: one pass over the sheet list,
then `valuesToObjects`/`arrayToMap` per sheet (`sheets[name] || []`),
with the `ID`-quality gate on the task rows. -/
def buildBundle (sheets : List (String × List (List JSVal))) : Bundle :=
  let sel := selectSheets sheets
  let sheetOf := fun n => (mapGet sel n).getD []
  let taskData := (valuesToObjects (sheetOf "Task")).filter
    (fun obj => truthy (getF obj "ID") && (toStr (getF obj "ID")).data.length > 0)
  ⟨taskData,
   ⟨arrayToMap (valuesToObjects (sheetOf "Project")) "ID",
    arrayToMap (valuesToObjects (sheetOf "Employee")) "ID",
    arrayToMap (valuesToObjects (sheetOf "TaskStatus")) "ID",
    arrayToMap (valuesToObjects (sheetOf "TaskType")) "ID",
    arrayToMap (valuesToObjects (sheetOf "Location")) "ID",
    arrayToMap (valuesToObjects (sheetOf "ProjectStatus")) "ID"⟩⟩

/-- `getAllDataWithCache()`: returns the bundle, the cache as left
behind, and the number of backing-store (spreadsheet) accesses
performed.  A fresh cache hit deserializes and returns with no
spreadsheet access; otherwise one bulk spreadsheet read happens, the
result is cached best-effort (a failed `put` is swallowed), and the
`catch` branch degrades to the empty bundle. -/
def getAllDataWithCache (w : World) : Bundle × Cache × Nat :=
  match cacheGet w.cache w.now ALL_DATA_CACHE_KEY with
  | some b => (b, w.cache, 0)
  | none =>
    if w.storeOk then
      let bundle := buildBundle w.sheets
      let cache' :=
        if w.cachePutOk then
          cachePut w.cache ALL_DATA_CACHE_KEY bundle (w.now + CACHE_EXPIRATION_SECONDS)
        else w.cache
      (bundle, cache', 1)
    else (emptyBundle, w.cache, 1)

/-! Statement helpers: named projections of the join logic, used to
state the claims about enrichment fields. -/

/-- The ten property names `enrichEventsWithSupportingData` adds or
overwrites on a task. -/
def enrichedFieldNames : List String :=
  ["projectName", "projectFolder", "locationName", "taskManagerName", "projectManagerName",
   "projectStatus", "taskTypeName", "taskStatusHebrew", "backgroundColor", "textColor"]

/-- The trim-and-lowercase normalization applied to the classification
fields. -/
def normalizeLabel (s : String) : String := jsToLower (jsTrim s)

/-- The project record the join resolves for a task. -/
def resolvedProjectData (task : Record) (sd : SupportingData) : Record :=
  lookupJoin (getF task "Project") sd.projects

/-- The task-type record the join resolves for a task. -/
def resolvedTaskTypeData (task : Record) (sd : SupportingData) : Record :=
  lookupJoin (getF task "TaskType") sd.taskTypes

/-- The raw project-status label the join resolves for a task
(`projectStatusData.Status || ''`), before normalization. -/
def resolvedProjectStatusLabel (task : Record) (sd : SupportingData) : String :=
  toStr (jsOr
    (getF (lookupJoin (getF (resolvedProjectData task sd) "ProjectStatus") sd.projectStatuses) "Status")
    (vStr ""))

/-- The raw task-status label the join resolves for a task
(`taskStatusData.hebrew || taskStatusData.TaskStatus || ''`), before
normalization. -/
def resolvedTaskStatusLabel (task : Record) (sd : SupportingData) : String :=
  toStr (jsOr (getF (lookupJoin (getF task "TaskStatus") sd.taskStatuses) "hebrew")
    (jsOr (getF (lookupJoin (getF task "TaskStatus") sd.taskStatuses) "TaskStatus") (vStr "")))

/-! Concrete inputs for the scenario claims and the witnesses. -/

/-- Supporting data with all six lookup maps empty. -/
def emptySD : SupportingData := ⟨[], [], [], [], [], []⟩

/-- The task row of the C5 scenario. -/
def c5Task : Record :=
  [("ID", vNum 1), ("dateIn", vStr "2024-03-01"), ("Project", vStr "P1"), ("TaskType", vStr "T1")]

/-- The lookup tables of the C5 scenario. -/
def c5SD : SupportingData :=
  ⟨[("P1", [("ID", vStr "P1"), ("name", vStr "Expo"), ("Location", vStr "L1")])],
   [],
   [],
   [("T1", [("ID", vStr "T1"), ("hebrew", vStr "Setup"), ("color", vStr "blue")])],
   [("L1", [("ID", vStr "L1"), ("name", vStr "Hall A")])],
   []⟩

/-- The single calendar event the C5 scenario pipeline produces. -/
def c5Out : Record :=
  [("id", vNum 1),
   ("title", vStr "setup - Expo - Hall A"),
   ("start", vStr "2024-03-01"),
   ("end", undef),
   ("allDay", vBool true),
   ("backgroundColor", vStr "#f0f2f5"),
   ("textColor", vStr "#0000FF"),
   ("borderColor", vStr "#f0f2f5"),
   ("classNames", vArr []),
   ("extendedProps", vObj
     [("description", vStr ""),
      ("status", vStr "לא הוגדר"),
      ("project", vStr "Expo"),
      ("user", vStr "לא שויך"),
      ("folderLink", vStr ""),
      ("taskTypeName", vStr "setup")])]

/-- A task whose `TaskType` has no lookup entry and that has no `Task`
field: exercises the `taskTypeName` fallback chain. -/
def c4Task : Record :=
  [("ID", vStr "1"), ("dateIn", vStr "2024-03-01"), ("Project", vStr "P1"), ("TaskType", vStr "T9")]

/-- A task carrying only a `Task` field, for the fallback-to-`Task`
case. -/
def c4bTask : Record := [("Task", vStr " FOO ")]

/-- A task failing validation (no `dateIn`, no `Project`, no `ID`). -/
def c3BadTask : Record := []

/-- A task passing validation. -/
def c3GoodTask : Record :=
  [("ID", vNum 2), ("dateIn", vStr "2024-03-02"), ("Project", vStr "P")]

/-- A minimal task used by the frame witness. -/
def c9Task : Record := [("ID", vStr "a")]

/-- A minimal enriched-shaped event with only a start date. -/
def c8Ev : Record := [("dateIn", vStr "2024-03-01")]

/-- The calendar event `transformEventsForCalendar [c8Ev]` produces. -/
def c8Out : Record :=
  [("id", undef),
   ("title", vStr ""),
   ("start", vStr "2024-03-01"),
   ("end", undef),
   ("allDay", vBool true),
   ("backgroundColor", undef),
   ("textColor", undef),
   ("borderColor", undef),
   ("classNames", vArr []),
   ("extendedProps", vObj
     [("description", vStr ""),
      ("status", vStr "לא הוגדר"),
      ("project", vStr "ללא פרויקט"),
      ("user", vStr "לא שויך"),
      ("folderLink", vStr ""),
      ("taskTypeName", vStr "")])]

/-- A world whose cache holds a fresh snapshot under the dataset key. -/
def c1HitWorld : World :=
  ⟨[], [(ALL_DATA_CACHE_KEY, emptyBundle, 100)], 0, true, true⟩

/-- A world with an empty cache and a one-row `Task` sheet. -/
def c1MissWorld : World :=
  ⟨[("Task", [[vStr "ID"], [vStr "5"]])], [], 0, true, true⟩

/-- The records of the C7 indexing scenario. -/
def c7Rec1 : Record := [("ID", vStr "a"), ("x", vNum 1)]

def c7Rec2 : Record := [("ID", vStr "a"), ("x", vNum 2)]

/-- The task list of the C3 witness: one invalid and one valid task. -/
def c3Tasks : List Record := [c3BadTask, c3GoodTask]

/-- An event of the special calendar-event category with an empty
project name (the round-trip case: no assigned project). -/
def c6SpecialEv : Record :=
  [("taskTypeName", vStr "ארוע לוח שנה"), ("projectName", vStr "")]

/-! Lemmas about the record and map primitives. -/

@[simp] theorem mapGet_mapSet_self {α : Type} (m : StrMap α) (k : String) (v : α) :
    mapGet (mapSet m k v) k = some v := by
  induction m with
  | nil => simp [mapSet, mapGet]
  | cons p rest ih =>
    by_cases h : p.1 = k
    · simp [mapSet, h, mapGet]
    · simp [mapSet, h, mapGet, ih]

@[simp] theorem mapGet_mapSet_ne {α : Type} (m : StrMap α) (k k' : String) (v : α)
    (h : k' ≠ k) : mapGet (mapSet m k v) k' = mapGet m k' := by
  have hne : k ≠ k' := fun hh => h hh.symm
  induction m with
  | nil => simp [mapSet, mapGet, hne]
  | cons p rest ih =>
    by_cases hp : p.1 = k
    · simp [mapSet, mapGet, hp, hne]
    · by_cases hp' : p.1 = k'
      · simp [mapSet, mapGet, hp, hp', h]
      · simp [mapSet, mapGet, hp, hp', ih]

@[simp] theorem getF_setF_self (r : Record) (k : String) (v : JSVal) :
    getF (setF r k v) k = v := by
  simp [getF, setF]

@[simp] theorem getF_setF_ne (r : Record) (k k' : String) (v : JSVal)
    (h : k' ≠ k) : getF (setF r k v) k' = getF r k' := by
  simp [getF, setF, h]

/-! Field computations on `enrichOne`. -/

theorem getF_enrichOne_backgroundColor (task : Record) (sd : SupportingData) :
    getF (enrichOne task sd) "backgroundColor" = vStr "#f0f2f5" := by
  simp [enrichOne]

theorem getF_enrichOne_textColor (task : Record) (sd : SupportingData) :
    getF (enrichOne task sd) "textColor"
      = vStr (mapColorNameToHex (getF (resolvedTaskTypeData task sd) "color") "#000000") := by
  simp [enrichOne, resolvedTaskTypeData]

theorem getF_enrichOne_projectStatus (task : Record) (sd : SupportingData) :
    getF (enrichOne task sd) "projectStatus"
      = vStr (normalizeLabel (resolvedProjectStatusLabel task sd)) := by
  simp [enrichOne, resolvedProjectStatusLabel, resolvedProjectData, normalizeLabel]

theorem getF_enrichOne_taskStatusHebrew (task : Record) (sd : SupportingData) :
    getF (enrichOne task sd) "taskStatusHebrew"
      = vStr (normalizeLabel (resolvedTaskStatusLabel task sd)) := by
  simp [enrichOne, resolvedTaskStatusLabel, normalizeLabel]

theorem getF_enrichOne_taskTypeName (task : Record) (sd : SupportingData) :
    getF (enrichOne task sd) "taskTypeName"
      = vStr (normalizeLabel (toStr (jsOr (getF (resolvedTaskTypeData task sd) "hebrew")
          (jsOr (getF task "Task") (vStr ""))))) := by
  simp [enrichOne, resolvedTaskTypeData, normalizeLabel]

/-- Full characterization of the lookup indexer: a key maps to the last
record in sequence order whose (truthy, stringified) key field equals
it; records with a falsy key field never contribute. -/
theorem mapGet_arrayToMap (arr : List Record) (k s : String) :
    mapGet (arrayToMap arr k) s =
      (arr.filter (fun r => truthy (getF r k) && (toStr (getF r k) == s))).getLast? := by
  induction arr using List.reverseRecOn with
  | nil => simp [arrayToMap, mapGet]
  | append_singleton l r ih =>
    unfold arrayToMap at ih ⊢
    rw [List.foldl_append, List.filter_append]
    simp only [List.foldl_cons, List.foldl_nil]
    by_cases hr : truthy (getF r k)
    · by_cases hs : toStr (getF r k) = s
      · simp [hr, hs, List.filter]
      · have hs' : s ≠ toStr (getF r k) := fun hh => hs hh.symm
        have hb : (toStr (getF r k) == s) = false := by simp [hs]
        simp [hr, hs, hs', hb, ih, List.filter]
    · simp [hr, ih, List.filter]

/-- C7: the lookup indexer skips records with an empty or missing key
field, later records overwrite earlier ones with the same key, and
indexing the two-record scenario on `ID` yields the single entry
`"a" ↦ {ID:"a", x:2}`. -/
theorem claim_C7_arrayToMap_last_wins :
    (∀ (arr : List Record) (k s : String),
      mapGet (arrayToMap arr k) s =
        (arr.filter (fun r => truthy (getF r k) && (toStr (getF r k) == s))).getLast?)
    ∧ arrayToMap [c7Rec1, c7Rec2] "ID" = [("a", c7Rec2)] :=
  ⟨mapGet_arrayToMap, rfl⟩

/-- C5: the scenario task and lookups produce exactly one calendar
event, with id `1`, title `"setup - Expo - Hall A"`, `allDay` true,
text color `"#0000FF"` and start `"2024-03-01"`. -/
theorem claim_C5_scenario_pipeline :
    transformEventsForCalendar (enrichEventsWithSupportingData [c5Task] c5SD) = [c5Out]
    ∧ getF c5Out "id" = vNum 1
    ∧ getF c5Out "title" = vStr "setup - Expo - Hall A"
    ∧ getF c5Out "allDay" = vBool true
    ∧ getF c5Out "textColor" = vStr "#0000FF"
    ∧ getF c5Out "start" = vStr "2024-03-01" :=
  ⟨rfl, rfl, rfl, rfl, rfl, rfl⟩

/-- C9: enrichment is a frame over the task record — every field other
than the ten enriched ones keeps its original value. -/
theorem claim_C9_enrichment_frame (task : Record) (sd : SupportingData) (k : String)
    (h : k ∉ enrichedFieldNames) :
    getF (enrichOne task sd) k = getF task k := by
  simp only [enrichedFieldNames, List.mem_cons, List.mem_singleton, not_or] at h
  obtain ⟨h1, h2, h3, h4, h5, h6, h7, h8, h9, h10⟩ := h
  simp [enrichOne, h1, h2, h3, h4, h5, h6, h7, h8, h9, h10]

/-- Witness for C9 at the field `ID` of a concrete task. -/
theorem claim_C9_enrichment_frame_witness :
    ("ID" ∉ enrichedFieldNames) ∧ getF (enrichOne c9Task emptySD) "ID" = getF c9Task "ID" :=
  ⟨by decide, claim_C9_enrichment_frame c9Task emptySD "ID" (by decide)⟩

/-- C10: every calendar event the pipeline outputs has the fixed
background color `"#f0f2f5"` and a border color equal to its background
color, for every task list and every lookup content. -/
theorem claim_C10_fixed_colors (tasks : List Record) (sd : SupportingData) (e : Record)
    (h : e ∈ transformEventsForCalendar (enrichEventsWithSupportingData tasks sd)) :
    getF e "backgroundColor" = vStr "#f0f2f5"
    ∧ getF e "borderColor" = getF e "backgroundColor" := by
  obtain ⟨ev, hev, htr⟩ := List.mem_filterMap.mp h
  have hbg : getF ev "backgroundColor" = vStr "#f0f2f5" := by
    obtain ⟨hmem, -⟩ := List.mem_filter.mp hev
    obtain ⟨u, hu, rfl⟩ := List.mem_map.mp hmem
    exact getF_enrichOne_backgroundColor u sd
  cases hfmt : formatDateTimeForCalendar (getF ev "dateIn") (getF ev "timeIn") with
  | none =>
    simp only [transformOne, hfmt] at htr
    exact Option.noConfusion htr
  | some s =>
    simp only [transformOne, hfmt] at htr
    have he := Option.some.inj htr
    subst he
    refine ⟨?_, ?_⟩
    · simpa [getF, mapGet] using hbg
    · simp [getF, mapGet]

/-- Witness for C10 at the concrete C5 pipeline output. -/
theorem claim_C10_fixed_colors_witness :
    c5Out ∈ transformEventsForCalendar (enrichEventsWithSupportingData [c5Task] c5SD)
    ∧ getF c5Out "backgroundColor" = vStr "#f0f2f5"
    ∧ getF c5Out "borderColor" = getF c5Out "backgroundColor" := by
  have hm : c5Out ∈ transformEventsForCalendar (enrichEventsWithSupportingData [c5Task] c5SD) := by
    rw [show transformEventsForCalendar (enrichEventsWithSupportingData [c5Task] c5SD) = [c5Out]
      from rfl]
    exact List.mem_singleton.mpr rfl
  obtain ⟨h1, h2⟩ := claim_C10_fixed_colors [c5Task] c5SD c5Out hm
  exact ⟨hm, h1, h2⟩

/-- C8: every calendar event the transformer produces carries
`undefined` in its `end` property, so `end` is omitted from its JSON
serialization — every output event is single-day, whatever `dateOut`
held. -/
theorem claim_C8_end_always_omitted (evs : List Record) (e : Record)
    (h : e ∈ transformEventsForCalendar evs) :
    getF e "end" = undef ∧ "end" ∉ jsonKeys e := by
  obtain ⟨ev, hev, htr⟩ := List.mem_filterMap.mp h
  cases hfmt : formatDateTimeForCalendar (getF ev "dateIn") (getF ev "timeIn") with
  | none =>
    simp only [transformOne, hfmt] at htr
    exact Option.noConfusion htr
  | some s =>
    simp only [transformOne, hfmt] at htr
    have he := Option.some.inj htr
    subst he
    refine ⟨by simp [getF, mapGet], ?_⟩
    intro hc
    simp only [jsonKeys, List.mem_map] at hc
    obtain ⟨p, hp, hp1⟩ := hc
    rw [List.mem_filter] at hp
    obtain ⟨hpX, hcond⟩ := hp
    simp only [List.mem_cons, List.not_mem_nil, or_false] at hpX
    rcases hpX with h' | h' | h' | h' | h' | h' | h' | h' | h' | h' <;> subst h' <;>
      simp_all [isUndef]

/-- Witness for C8 at a concrete minimal event. -/
theorem claim_C8_end_always_omitted_witness :
    getF c8Out "end" = undef ∧ "end" ∉ jsonKeys c8Out := by
  have hm : c8Out ∈ transformEventsForCalendar [c8Ev] := by
    rw [show transformEventsForCalendar [c8Ev] = [c8Out] from rfl]
    exact List.mem_singleton.mpr rfl
  exact claim_C8_end_always_omitted [c8Ev] c8Out hm

/-- C2: for every task and lookup content, the enriched event's
classification fields are exactly the trim-and-lowercase normalizations
of the resolved raw labels, and the status filter drops the event if
and only if the normalized project status is one of the seven literal
inactive-project constants or the normalized task status is one of the
four literal inactive-task constants — membership is plain list
membership, i.e. exact string equality after normalization. -/
theorem claim_C2_status_filter (task : Record) (sd : SupportingData) :
    (getF (enrichOne task sd) "projectStatus"
        = vStr (normalizeLabel (resolvedProjectStatusLabel task sd))
     ∧ getF (enrichOne task sd) "taskStatusHebrew"
        = vStr (normalizeLabel (resolvedTaskStatusLabel task sd)))
    ∧ (statusKeep (enrichOne task sd) = false
        ↔ normalizeLabel (resolvedProjectStatusLabel task sd) ∈ inactiveProjectStatuses
          ∨ normalizeLabel (resolvedTaskStatusLabel task sd) ∈ inactiveTaskStatuses) := by
  refine ⟨⟨getF_enrichOne_projectStatus task sd, getF_enrichOne_taskStatusHebrew task sd⟩, ?_⟩
  rw [statusKeep, getF_enrichOne_projectStatus, getF_enrichOne_taskStatusHebrew]
  by_cases hp : normalizeLabel (resolvedProjectStatusLabel task sd) ∈ inactiveProjectStatuses <;>
    by_cases ht : normalizeLabel (resolvedTaskStatusLabel task sd) ∈ inactiveTaskStatuses <;>
      simp [jsIncludes, List.elem_iff, hp, ht]

/-- Stringifying the truthy members of a list of string values keeps
exactly the non-empty strings. -/
theorem map_toStr_filter_truthy (l : List String) :
    ((l.map vStr).filter truthy).map toStr = l.filter (fun x => x != "") := by
  induction l with
  | nil => rfl
  | cons a t ih =>
    by_cases h : a = ""
    · simp [h, List.filter, truthy, toStr, ih]
    · have hb : (a != "") = true := bne_iff_ne.mpr h
      simp [h, hb, List.filter, truthy, toStr, ih]

/-- C6: when the event's type is the special calendar-event category the
title is exactly the project name (the empty string when none resolved);
otherwise it is the `" - "`-join of precisely the non-empty fields among
task type name, project name, location name and task manager name, in
that order. -/
theorem claim_C6_title_policy (event : Record) (pn : String)
    (hpn : getF event "projectName" = vStr pn) :
    (jsEqStr (getF event "taskTypeName") "ארוע לוח שנה" = true →
       buildEventTitle event = vStr pn)
    ∧ (jsEqStr (getF event "taskTypeName") "ארוע לוח שנה" = false →
       ∀ ttn ln tmn, getF event "taskTypeName" = vStr ttn →
         getF event "locationName" = vStr ln →
         getF event "taskManagerName" = vStr tmn →
         buildEventTitle event
           = vStr (String.intercalate " - " (([ttn, pn, ln, tmn]).filter (fun x => x != "")))) := by
  constructor
  · intro h
    rw [buildEventTitle, if_pos h, hpn]
    by_cases hp : pn = "" <;> simp [jsOr, truthy, hp]
  · intro h ttn ln tmn h1 h2 h3
    rw [buildEventTitle, if_neg (by simp [h]), h1, h2, h3, hpn]
    rw [show [vStr ttn, vStr pn, vStr ln, vStr tmn] = ([ttn, pn, ln, tmn].map vStr) from rfl,
      map_toStr_filter_truthy]

/-- Witness for C6: the join case at a concrete enriched event, and the
special-category round trip with no assigned project. -/
theorem claim_C6_title_policy_witness :
    (getF (enrichOne c4bTask emptySD) "projectName" = vStr ""
     ∧ jsEqStr (getF (enrichOne c4bTask emptySD) "taskTypeName") "ארוע לוח שנה" = false
     ∧ buildEventTitle (enrichOne c4bTask emptySD)
         = vStr (String.intercalate " - " ((["foo", "", "", ""]).filter (fun x => x != ""))))
    ∧ (getF c6SpecialEv "projectName" = vStr ""
       ∧ jsEqStr (getF c6SpecialEv "taskTypeName") "ארוע לוח שנה" = true
       ∧ buildEventTitle c6SpecialEv = vStr "") := by
  refine ⟨⟨rfl, rfl, ?_⟩, ⟨rfl, rfl, ?_⟩⟩
  · exact (claim_C6_title_policy (enrichOne c4bTask emptySD) "" rfl).2 rfl "foo" "" "" rfl rfl rfl
  · exact (claim_C6_title_policy c6SpecialEv "" rfl).1 rfl

/-- C4 counterexample: a task whose `TaskType` has no lookup entry and
that lacks a `Task` field gets `taskTypeName = ""`, not the normalized
`TaskType` value `"t9"` the claim's fallback would give. -/
theorem claim_C4_counterexample :
    truthy (getF (resolvedTaskTypeData c4Task emptySD) "hebrew") = false
    ∧ getF c4Task "TaskType" = vStr "T9"
    ∧ getF (enrichOne c4Task emptySD) "taskTypeName" = vStr ""
    ∧ getF (enrichOne c4Task emptySD) "taskTypeName"
        ≠ vStr (normalizeLabel (toStr (getF c4Task "TaskType"))) := by
  refine ⟨rfl, rfl, rfl, fun h => ?_⟩
  have h2 : ("" : String) = "t9" := JSVal.vStr.inj h
  exact absurd h2 (by decide)

/-- C4 as amended: `taskTypeName` is the normalized lookup `hebrew`
label when that is truthy; otherwise it falls back to the task's own
`Task` field (not `TaskType`), and to the empty string when that is
falsy too. -/
theorem claim_C4_taskTypeName_fallback (task : Record) (sd : SupportingData) :
    (truthy (getF (resolvedTaskTypeData task sd) "hebrew") = true →
       getF (enrichOne task sd) "taskTypeName"
         = vStr (normalizeLabel (toStr (getF (resolvedTaskTypeData task sd) "hebrew"))))
    ∧ (truthy (getF (resolvedTaskTypeData task sd) "hebrew") = false →
       truthy (getF task "Task") = true →
       getF (enrichOne task sd) "taskTypeName"
         = vStr (normalizeLabel (toStr (getF task "Task"))))
    ∧ (truthy (getF (resolvedTaskTypeData task sd) "hebrew") = false →
       truthy (getF task "Task") = false →
       getF (enrichOne task sd) "taskTypeName" = vStr "") := by
  refine ⟨fun h => ?_, fun h1 h2 => ?_, fun h1 h2 => ?_⟩
  · rw [getF_enrichOne_taskTypeName]
    simp [jsOr, h]
  · rw [getF_enrichOne_taskTypeName]
    simp [jsOr, h1, h2]
  · rw [getF_enrichOne_taskTypeName]
    simp [jsOr, h1, h2]
    rfl

/-- Witness for the amended C4 at the fallback-to-`Task` case. -/
theorem claim_C4_taskTypeName_fallback_witness :
    truthy (getF (resolvedTaskTypeData c4bTask emptySD) "hebrew") = false
    ∧ truthy (getF c4bTask "Task") = true
    ∧ getF (enrichOne c4bTask emptySD) "taskTypeName"
        = vStr (normalizeLabel (toStr (getF c4bTask "Task"))) :=
  ⟨rfl, rfl, (claim_C4_taskTypeName_fallback c4bTask emptySD).2.1 rfl rfl⟩

/-- C3: a task with any validation error is excluded from the pipeline
(every output calendar event stems from an error-free task), its
exclusion is logged — the header line carrying its `ID` or the
unknown-marker fallback, followed by one line per specific reason — and
every error-free task is still processed. -/
theorem claim_C3_invalid_excluded (tasks : List Record) (sd : SupportingData) (task : Record)
    (hmem : task ∈ tasks) (herr : validateEvent task ≠ []) :
    task ∉ tasks.filter (fun t => validateEvent t = [])
    ∧ validationLogHeader task ∈ validationLogs tasks
    ∧ (∀ err ∈ validateEvent task, ("- " ++ err) ∈ validationLogs tasks)
    ∧ (∀ u ∈ tasks, validateEvent u = [] → u ∈ tasks.filter (fun t => validateEvent t = []))
    ∧ (∀ e ∈ transformEventsForCalendar (enrichEventsWithSupportingData tasks sd),
        ∃ u, u ∈ tasks ∧ validateEvent u = [] ∧ transformOne (enrichOne u sd) = some e) := by
  refine ⟨?_, ?_, ?_, ?_, ?_⟩
  · intro hc
    have hv := (List.mem_filter.mp hc).2
    simp only [decide_eq_true_eq] at hv
    exact herr hv
  · refine List.mem_flatMap.mpr ⟨task, hmem, ?_⟩
    rw [if_neg herr]
    exact List.mem_cons_self _ _
  · intro err herrmem
    refine List.mem_flatMap.mpr ⟨task, hmem, ?_⟩
    rw [if_neg herr]
    exact List.mem_cons_of_mem _ (List.mem_map.mpr ⟨err, herrmem, rfl⟩)
  · intro u hu hv
    exact List.mem_filter.mpr ⟨hu, by simp [hv]⟩
  · intro e he
    obtain ⟨ev, hev, htr⟩ := List.mem_filterMap.mp he
    obtain ⟨hevm, -⟩ := List.mem_filter.mp hev
    obtain ⟨u, hu, rfl⟩ := List.mem_map.mp hevm
    obtain ⟨hut, huv⟩ := List.mem_filter.mp hu
    exact ⟨u, hut, by simpa using huv, htr⟩

/-- Witness for C3 at a two-task list with one invalid task. -/
theorem claim_C3_invalid_excluded_witness :
    c3BadTask ∉ c3Tasks.filter (fun t => validateEvent t = [])
    ∧ validationLogHeader c3BadTask ∈ validationLogs c3Tasks
    ∧ (∀ err ∈ validateEvent c3BadTask, ("- " ++ err) ∈ validationLogs c3Tasks)
    ∧ (∀ u ∈ c3Tasks, validateEvent u = [] → u ∈ c3Tasks.filter (fun t => validateEvent t = []))
    ∧ (∀ e ∈ transformEventsForCalendar (enrichEventsWithSupportingData c3Tasks emptySD),
        ∃ u, u ∈ c3Tasks ∧ validateEvent u = [] ∧ transformOne (enrichOne u emptySD) = some e) :=
  claim_C3_invalid_excluded c3Tasks emptySD c3BadTask (List.mem_cons_self _ _) (by decide)

/-- Reading right after a put under the same key sees the stored value
while it is unexpired. -/
theorem cacheGet_cachePut_self (c : Cache) (k : String) (b : Bundle) (exp now : Nat) :
    cacheGet (cachePut c k b exp) now k = if now < exp then some b else none := by
  simp [cacheGet, cachePut]

/-- C1: a fresh cache hit under the dataset key performs no backing
store access and returns the cached bundle unchanged; after a miss the
one freshly built bundle is stored, and any further call within the
3600-second TTL performs no backing-store access and returns the
identical bundle. -/
theorem claim_C1_bundle_cache (w : World) (b : Bundle) (later : Nat) :
    (cacheGet w.cache w.now ALL_DATA_CACHE_KEY = some b →
       getAllDataWithCache w = (b, w.cache, 0))
    ∧ (cacheGet w.cache w.now ALL_DATA_CACHE_KEY = none →
       w.storeOk = true → w.cachePutOk = true →
       later < w.now + CACHE_EXPIRATION_SECONDS →
       (getAllDataWithCache w).2.2 = 1
       ∧ getAllDataWithCache ⟨w.sheets, (getAllDataWithCache w).2.1, later, w.cachePutOk, w.storeOk⟩
           = ((getAllDataWithCache w).1, (getAllDataWithCache w).2.1, 0)) := by
  constructor
  · intro hhit
    simp [getAllDataWithCache, hhit]
  · intro hmiss hstore hput hexp
    have h1 : getAllDataWithCache w
        = (buildBundle w.sheets,
           cachePut w.cache ALL_DATA_CACHE_KEY (buildBundle w.sheets)
             (w.now + CACHE_EXPIRATION_SECONDS), 1) := by
      simp [getAllDataWithCache, hmiss, hstore, hput]
    rw [h1]
    refine ⟨rfl, ?_⟩
    simp [getAllDataWithCache, cacheGet_cachePut_self, hexp]

/-- Witness for C1: a concrete hit world and a concrete miss-then-hit
pair of calls. -/
theorem claim_C1_bundle_cache_witness :
    (getAllDataWithCache c1HitWorld = (emptyBundle, c1HitWorld.cache, 0))
    ∧ ((getAllDataWithCache c1MissWorld).2.2 = 1
       ∧ getAllDataWithCache
           ⟨c1MissWorld.sheets, (getAllDataWithCache c1MissWorld).2.1, 10,
            c1MissWorld.cachePutOk, c1MissWorld.storeOk⟩
           = ((getAllDataWithCache c1MissWorld).1, (getAllDataWithCache c1MissWorld).2.1, 0)) :=
  ⟨(claim_C1_bundle_cache c1HitWorld emptyBundle 0).1 rfl,
   (claim_C1_bundle_cache c1MissWorld emptyBundle 10).2 rfl rfl rfl (by decide)⟩

end WebBoard
